import Mathlib

/-!
Verification of the gmail-invoice-agent extraction/classification pipeline.

This file gives a shallow embedding, in Lean 4, of the pure core of the
repository (text normalization, JSON response parsing, field normalization,
record formatting, categorization fallback, persistence dedup, retry policy)
and proves or refutes the frozen specification claims about it.

Modelling conventions:
* Python strings are sequences of Unicode code points; they are modelled as
  Lean String / List Char (Lean Char is a Unicode scalar value; lone
  surrogates, which cannot occur in the inputs of interest, are not modelled).
* Python float values arising from parsing decimal amount strings are
  modelled as exact decimal numbers (integer mantissa and power-of-ten
  exponent).  For the magnitudes appearing in the program (invoice amounts)
  the decimal repr of the Python float round-trips, so the model agrees with
  `str(float(s))`.
* Python dicts parsed from JSON are modelled as association lists in
  insertion order, with later duplicate keys overwriting earlier ones.
* Effects (the Claude HTTP call, file writes, sleeping) are modelled by
  passing their observable outcome in as a parameter; functions that the
  source wraps in try/except blocks are modelled in the Except monad, with
  the handler applied explicitly.
-/

namespace GmailAgent

/-- Python `str.isspace` / the whitespace set stripped by `str.strip()`:
ASCII whitespace, the C0 separators, NEL, NBSP and the Unicode space
characters. -/
def pyIsSpace (c : Char) : Bool :=
  let n := c.toNat
  n == 32 || (9 ≤ n && n ≤ 13) || (28 ≤ n && n ≤ 31) || n == 0x85 || n == 0xa0 ||
  n == 0x1680 || (0x2000 ≤ n && n ≤ 0x200a) || n == 0x2028 || n == 0x2029 ||
  n == 0x202f || n == 0x205f || n == 0x3000

/-- Python `str.isprintable`: true except for control characters (C0, DEL,
C1), separator characters other than the plain space, and the common format
characters.  This is an executable approximation of the Unicode category
table; it is exact on the character ranges the program manipulates. -/
def pyIsPrintable (c : Char) : Bool :=
  let n := c.toNat
  if n == 32 then true
  else if n < 32 then false
  else if 127 ≤ n && n ≤ 160 then false
  else if n == 0xad then false
  else if n == 0x1680 || (0x2000 ≤ n && n ≤ 0x200a) || n == 0x2028 || n == 0x2029 ||
          n == 0x202f || n == 0x205f || n == 0x3000 then false
  else if (0x200b ≤ n && n ≤ 0x200f) || (0x202a ≤ n && n ≤ 0x202e) ||
          (0x2060 ≤ n && n ≤ 0x2064) || n == 0xfeff then false
  else true

/-- Strip leading characters satisfying `pyIsSpace`, as in Python strip. -/
def stripLeft (l : List Char) : List Char := l.dropWhile pyIsSpace

/-- Python `str.strip()` on a list of code points. -/
def pyStripList (l : List Char) : List Char :=
  ((stripLeft l).reverse.dropWhile pyIsSpace).reverse

/-- Python `str.strip()`. -/
def pyStrip (s : String) : String := String.mk (pyStripList s.data)

/-- Python `str.lower()` (ASCII case mapping; the keywords and error strings
the program lowercases are ASCII). -/
def pyLower (s : String) : String := String.mk (s.data.map Char.toLower)

/-- Python `str.upper()` (ASCII case mapping; currency codes are ASCII). -/
def pyUpper (s : String) : String := String.mk (s.data.map Char.toUpper)

/-- The fixed substitution table of `BaseExtractor._clean_text`
(`invoice-agent` smart-typography replacements), in source order:
acute accent, right/left single quotation mark, left/right double quotation
mark, en dash, em dash, non-breaking space. -/
def cleanTextReplacements : List (Char × Char) :=
  [(Char.ofNat 0xb4, Char.ofNat 39), (Char.ofNat 0x2019, Char.ofNat 39),
   (Char.ofNat 0x2018, Char.ofNat 39), (Char.ofNat 0x201c, Char.ofNat 34),
   (Char.ofNat 0x201d, Char.ofNat 34), (Char.ofNat 0x2013, Char.ofNat 45),
   (Char.ofNat 0x2014, Char.ofNat 45), (Char.ofNat 0x00a0, Char.ofNat 32)]

/-- Python `text.replace(old, new)` for single-character old/new. -/
def pyReplaceChar (l : List Char) (old new : Char) : List Char :=
  l.map fun c => if c = old then new else c

/-- The sequence of `text.replace(old_char, new_char)` calls performed by
`BaseExtractor._clean_text`. -/
def applyReplacements (l : List Char) : List Char :=
  cleanTextReplacements.foldl (fun acc p => pyReplaceChar acc p.1 p.2) l

/-- `BaseExtractor._clean_text`: empty input returns empty; otherwise apply
the substitution table, then keep only characters that are printable or
whitespace.  The final UTF-8 encodability check always succeeds on the
model (every Lean Char is a Unicode scalar value, and the filter has already
removed anything else Python could fail on), so the ASCII-replacement and
empty-string fallbacks are not reachable in the model. -/
def cleanText (s : String) : String :=
  if s = "" then ""
  else String.mk ((applyReplacements s.data).filter fun c =>
    pyIsPrintable c || pyIsSpace c)

/-- The pointwise character substitution that `applyReplacements` performs. -/
def replChar (c : Char) : Char :=
  if c = Char.ofNat 0xb4 then Char.ofNat 39
  else if c = Char.ofNat 0x2019 then Char.ofNat 39
  else if c = Char.ofNat 0x2018 then Char.ofNat 39
  else if c = Char.ofNat 0x201c then Char.ofNat 34
  else if c = Char.ofNat 0x201d then Char.ofNat 34
  else if c = Char.ofNat 0x2013 then Char.ofNat 45
  else if c = Char.ofNat 0x2014 then Char.ofNat 45
  else if c = Char.ofNat 0x00a0 then Char.ofNat 32
  else c

theorem applyReplacements_eq_map (l : List Char) :
    applyReplacements l = l.map replChar := by
  simp only [applyReplacements, cleanTextReplacements, List.foldl_cons,
    List.foldl_nil, pyReplaceChar, List.map_map]
  apply List.map_congr_left
  intro c _
  by_cases h1 : c = Char.ofNat 0xb4
  · subst h1; decide
  · by_cases h2 : c = Char.ofNat 0x2019
    · subst h2; decide
    · by_cases h3 : c = Char.ofNat 0x2018
      · subst h3; decide
      · by_cases h4 : c = Char.ofNat 0x201c
        · subst h4; decide
        · by_cases h5 : c = Char.ofNat 0x201d
          · subst h5; decide
          · by_cases h6 : c = Char.ofNat 0x2013
            · subst h6; decide
            · by_cases h7 : c = Char.ofNat 0x2014
              · subst h7; decide
              · by_cases h8 : c = Char.ofNat 0x00a0
                · subst h8; decide
                · simp [replChar, h1, h2, h3, h4, h5, h6, h7, h8]

theorem replChar_idem (c : Char) : replChar (replChar c) = replChar c := by
  unfold replChar
  by_cases h1 : c = Char.ofNat 0xb4
  · subst h1; decide
  · by_cases h2 : c = Char.ofNat 0x2019
    · subst h2; decide
    · by_cases h3 : c = Char.ofNat 0x2018
      · subst h3; decide
      · by_cases h4 : c = Char.ofNat 0x201c
        · subst h4; decide
        · by_cases h5 : c = Char.ofNat 0x201d
          · subst h5; decide
          · by_cases h6 : c = Char.ofNat 0x2013
            · subst h6; decide
            · by_cases h7 : c = Char.ofNat 0x2014
              · subst h7; decide
              · by_cases h8 : c = Char.ofNat 0x00a0
                · subst h8; decide
                · simp [h1, h2, h3, h4, h5, h6, h7, h8]

theorem map_fix_of_mem {f : Char → Char} :
    ∀ {l : List Char}, (∀ a ∈ l, f a = a) → l.map f = l := by
  intro l
  induction l with
  | nil => intro _; rfl
  | cons x xs ih =>
    intro h
    simp only [List.map_cons]
    rw [h x (List.mem_cons_self x xs), ih fun a ha => h a (List.mem_cons_of_mem x ha)]

theorem cleanText_idem (s : String) : cleanText (cleanText s) = cleanText s := by
  by_cases h2 : cleanText s = ""
  · rw [h2]; rfl
  · have hs : s ≠ "" := by
      intro h
      apply h2
      rw [h]
      rfl
    rw [cleanText, if_neg h2, cleanText, if_neg hs]
    show String.mk ((applyReplacements ((applyReplacements s.data).filter fun c =>
      pyIsPrintable c || pyIsSpace c)).filter fun c =>
      pyIsPrintable c || pyIsSpace c) = _
    rw [applyReplacements_eq_map, applyReplacements_eq_map]
    have hfix : ∀ a ∈ (s.data.map replChar).filter (fun c =>
        pyIsPrintable c || pyIsSpace c), replChar a = a := by
      intro a ha
      have hmem : a ∈ s.data.map replChar := List.mem_of_mem_filter ha
      rcases List.mem_map.mp hmem with ⟨b, _, rfl⟩
      exact replChar_idem b
    rw [map_fix_of_mem hfix]
    have hkeep : ∀ a ∈ (s.data.map replChar).filter (fun c =>
        pyIsPrintable c || pyIsSpace c), (pyIsPrintable a || pyIsSpace a) = true := by
      intro a ha
      exact (List.mem_filter.mp ha).2
    rw [List.filter_eq_self.mpr hkeep]

/-! ## JSON values and `json.loads` -/

/-- A parsed JSON value.  Numbers are stored exactly as decimal values
`mant * 10 ^ exp10` together with the int/float distinction Python makes
(`isFloat` is true when the literal had a fraction or exponent part). -/
inductive Json where
  | null : Json
  | bool (b : Bool) : Json
  | num (mant : Int) (exp10 : Int) (isFloat : Bool) : Json
  | str (s : String) : Json
  | arr (items : List Json) : Json
  | obj (fields : List (String × Json)) : Json

/-- Insert a key/value pair into an object, overwriting an existing binding
for the same key in place, as Python dict assignment does. -/
def objInsert (fields : List (String × Json)) (k : String) (v : Json) :
    List (String × Json) :=
  match fields with
  | [] => [(k, v)]
  | (k0, v0) :: rest =>
    if k0 = k then (k0, v) :: rest else (k0, v0) :: objInsert rest k v

/-- JSON whitespace skipped by the Python decoder. -/
def jsonWs (c : Char) : Bool :=
  c == ' ' || c == '\t' || c == '\n' || c == '\r'

/-- Skip JSON whitespace. -/
def skipJsonWs (l : List Char) : List Char := l.dropWhile jsonWs

/-- Value of a hex digit. -/
def hexVal (c : Char) : Option Nat :=
  if '0' ≤ c && c ≤ '9' then some (c.toNat - 48)
  else if 'a' ≤ c && c ≤ 'f' then some (c.toNat - 87)
  else if 'A' ≤ c && c ≤ 'F' then some (c.toNat - 55)
  else none

/-- Parse exactly four hex digits. -/
def parseHex4 (l : List Char) : Option (Nat × List Char) :=
  match l with
  | a :: b :: c :: d :: rest =>
    match hexVal a, hexVal b, hexVal c, hexVal d with
    | some x, some y, some z, some w => some (((x * 16 + y) * 16 + z) * 16 + w, rest)
    | _, _, _, _ => none
  | _ => none

/-- Parse the body of a JSON string literal (the opening quote already
consumed), handling the escape sequences the Python decoder accepts.  A lone
surrogate escape, which Lean Char cannot represent, is mapped to U+FFFD. -/
def parseJString (fuel : Nat) (l : List Char) (acc : List Char) :
    Except String (String × List Char) :=
  match fuel with
  | 0 => .error "fuel exhausted"
  | fuel + 1 =>
    match l with
    | [] => .error "Unterminated string"
    | c :: rest =>
      if c = Char.ofNat 34 then .ok (String.mk acc.reverse, rest)
      else if c = Char.ofNat 92 then
        match rest with
        | [] => .error "Unterminated string"
        | e :: rest2 =>
          if e = Char.ofNat 34 then parseJString fuel rest2 (Char.ofNat 34 :: acc)
          else if e = Char.ofNat 92 then parseJString fuel rest2 (Char.ofNat 92 :: acc)
          else if e = '/' then parseJString fuel rest2 ('/' :: acc)
          else if e = 'b' then parseJString fuel rest2 (Char.ofNat 8 :: acc)
          else if e = 'f' then parseJString fuel rest2 (Char.ofNat 12 :: acc)
          else if e = 'n' then parseJString fuel rest2 (Char.ofNat 10 :: acc)
          else if e = 'r' then parseJString fuel rest2 (Char.ofNat 13 :: acc)
          else if e = 't' then parseJString fuel rest2 (Char.ofNat 9 :: acc)
          else if e = 'u' then
            match parseHex4 rest2 with
            | none => .error "Invalid uXXXX escape"
            | some (n, rest3) =>
              if 0xd800 ≤ n && n ≤ 0xdbff then
                match rest3 with
                | u1 :: u2 :: rest4 =>
                  if u1 = Char.ofNat 92 && u2 = 'u' then
                    match parseHex4 rest4 with
                    | some (n2, rest5) =>
                      if 0xdc00 ≤ n2 && n2 ≤ 0xdfff then
                        parseJString fuel rest5
                          (Char.ofNat (0x10000 + (n - 0xd800) * 0x400 + (n2 - 0xdc00)) :: acc)
                      else parseJString fuel rest3 (Char.ofNat 0xfffd :: acc)
                    | none => parseJString fuel rest3 (Char.ofNat 0xfffd :: acc)
                  else parseJString fuel rest3 (Char.ofNat 0xfffd :: acc)
                | _ => parseJString fuel rest3 (Char.ofNat 0xfffd :: acc)
              else if 0xdc00 ≤ n && n ≤ 0xdfff then
                parseJString fuel rest3 (Char.ofNat 0xfffd :: acc)
              else parseJString fuel rest3 (Char.ofNat n :: acc)
          else .error "Invalid escape"
      else if c.toNat < 0x20 then .error "Invalid control character"
      else parseJString fuel rest (c :: acc)

/-- Numeric value of a string of decimal digits. -/
def digitsToNat (l : List Char) : Nat :=
  l.foldl (fun a c => a * 10 + (c.toNat - 48)) 0

/-- Parse a JSON number literal, following the Python decoder regex
`(-?(?:0|[1-9]\d*))(\.\d+)?([eE][-+]?\d+)?`: after a leading zero no further
integer digits are consumed, and an incomplete fraction or exponent part is
left unconsumed (to fail later as a delimiter error). -/
def parseJNumber (l : List Char) : Except String (Json × List Char) :=
  let (neg, l1) :=
    match l with
    | c :: r => if c = '-' then (true, r) else (false, l)
    | [] => (false, l)
  let ipAll := l1.takeWhile Char.isDigit
  if ipAll.isEmpty then .error "Expecting value"
  else
    let ip := if ipAll.headD '0' = '0' then ['0'] else ipAll
    let l2 := l1.drop ip.length
    let (fracDigits, l3) :=
      match l2 with
      | '.' :: r =>
        let ds := r.takeWhile Char.isDigit
        if ds.isEmpty then ([], l2) else (ds, r.drop ds.length)
      | _ => ([], l2)
    let (expVal, hasExp, l4) :=
      match l3 with
      | e :: r =>
        if e = 'e' || e = 'E' then
          match r with
          | s :: r2 =>
            if s = '+' || s = '-' then
              let ds := r2.takeWhile Char.isDigit
              if ds.isEmpty then ((0 : Int), false, l3)
              else ((if s = '-' then -(digitsToNat ds : Int) else (digitsToNat ds : Int)),
                    true, r2.drop ds.length)
            else
              let ds := r.takeWhile Char.isDigit
              if ds.isEmpty then ((0 : Int), false, l3)
              else ((digitsToNat ds : Int), true, r.drop ds.length)
          | [] => ((0 : Int), false, l3)
        else ((0 : Int), false, l3)
      | [] => ((0 : Int), false, l3)
    let mantNat := digitsToNat (ip ++ fracDigits)
    let mant : Int := if neg then -(mantNat : Int) else (mantNat : Int)
    let isFloat := !fracDigits.isEmpty || hasExp
    .ok (Json.num mant (expVal - (fracDigits.length : Int)) isFloat, l4)

mutual

/-- Parse one JSON value at the head of the input. -/
def parseJValue (fuel : Nat) (l : List Char) : Except String (Json × List Char) :=
  match fuel with
  | 0 => .error "fuel exhausted"
  | fuel + 1 =>
    match l with
    | [] => .error "Expecting value"
    | c :: rest =>
      if c = Char.ofNat 34 then
        match parseJString fuel rest [] with
        | .ok (s, r) => .ok (Json.str s, r)
        | .error e => .error e
      else if c = '{' then
        let r := skipJsonWs rest
        match r with
        | c2 :: r2 => if c2 = '}' then .ok (Json.obj [], r2) else parseJMembers fuel r []
        | [] => .error "Expecting property name"
      else if c = '[' then
        let r := skipJsonWs rest
        match r with
        | c2 :: r2 => if c2 = ']' then .ok (Json.arr [], r2) else parseJItems fuel r []
        | [] => .error "Expecting value"
      else if ("true".data).isPrefixOf l then .ok (Json.bool true, l.drop 4)
      else if ("false".data).isPrefixOf l then .ok (Json.bool false, l.drop 5)
      else if ("null".data).isPrefixOf l then .ok (Json.null, l.drop 4)
      else if c = '-' || c.isDigit then parseJNumber l
      else .error "Expecting value"

/-- Parse the elements of a non-empty JSON array (after the opening
bracket), accumulating in reverse. -/
def parseJItems (fuel : Nat) (l : List Char) (acc : List Json) :
    Except String (Json × List Char) :=
  match fuel with
  | 0 => .error "fuel exhausted"
  | fuel + 1 =>
    match parseJValue fuel (skipJsonWs l) with
    | .error e => .error e
    | .ok (v, r) =>
      match skipJsonWs r with
      | ',' :: r2 => parseJItems fuel r2 (v :: acc)
      | ']' :: r2 => .ok (Json.arr (v :: acc).reverse, r2)
      | _ => .error "Expecting comma delimiter"

/-- Parse the members of a non-empty JSON object (after the opening brace). -/
def parseJMembers (fuel : Nat) (l : List Char) (acc : List (String × Json)) :
    Except String (Json × List Char) :=
  match fuel with
  | 0 => .error "fuel exhausted"
  | fuel + 1 =>
    match skipJsonWs l with
    | c :: r =>
      if c = Char.ofNat 34 then
        match parseJString fuel r [] with
        | .error e => .error e
        | .ok (k, r2) =>
          match skipJsonWs r2 with
          | ':' :: r3 =>
            match parseJValue fuel (skipJsonWs r3) with
            | .error e => .error e
            | .ok (v, r4) =>
              let acc2 := objInsert acc k v
              match skipJsonWs r4 with
              | ',' :: r5 => parseJMembers fuel r5 acc2
              | '}' :: r5 => .ok (Json.obj acc2, r5)
              | _ => .error "Expecting comma delimiter"
          | _ => .error "Expecting colon delimiter"
      else .error "Expecting property name"
    | [] => .error "Expecting property name"

end

/-- Python `json.loads`: parse a complete JSON document, rejecting trailing
data.  (The non-standard `NaN` and `Infinity` literals Python also accepts
are not modelled; they do not occur in this program.) -/
def jsonLoads (s : String) : Except String Json :=
  match parseJValue (2 * s.data.length + 16) (skipJsonWs s.data) with
  | .ok (v, rest) => if (skipJsonWs rest).isEmpty then .ok v else .error "Extra data"
  | .error e => .error e

/-! ## `BaseExtractor._parse_json_response` -/

/-- Python `pat in hay` substring containment. -/
def containsSub (hay pat : List Char) : Bool :=
  match hay with
  | [] => pat.isEmpty
  | _ :: t => pat.isPrefixOf hay || containsSub t pat

/-- The text after the first occurrence of `pat`, when `pat` occurs. -/
def splitAfterFirst (hay pat : List Char) : Option (List Char) :=
  match hay with
  | [] => if pat.isEmpty then some [] else none
  | _ :: t => if pat.isPrefixOf hay then some (hay.drop pat.length)
              else splitAfterFirst t pat

/-- The text before the first occurrence of `pat` (all of `hay` when `pat`
does not occur), i.e. Python `hay.split(pat)[0]`. -/
def takeBeforeFirst (hay pat : List Char) : List Char :=
  match hay with
  | [] => []
  | c :: t => if pat.isPrefixOf hay then [] else c :: takeBeforeFirst t pat

/-- The markdown-fence stripping at the top of `_parse_json_response`:
`json_text.split("```json")[1].split("```")[0]` when a ```json fence is
present, else `json_text.split("```")[1].split("```")[0]` when a bare fence
is present, else the text unchanged.  Because every later occurrence of the
split pattern begins with three backticks, taking the segment after the
first occurrence and cutting it at the next "```" is exactly Python
`split(pat)[1].split("```")[0]`. -/
def fenceStrip (l : List Char) : List Char :=
  let fenceJson := ("```json").data
  let fence := ("```").data
  if containsSub l fenceJson then
    match splitAfterFirst l fenceJson with
    | some rest => takeBeforeFirst rest fence
    | none => l
  else if containsSub l fence then
    match splitAfterFirst l fence with
    | some rest => takeBeforeFirst rest fence
    | none => l
  else l

/-- Python `str.find(ch)` as an optional index. -/
def findCharIdx (l : List Char) (c : Char) : Option Nat :=
  match l with
  | [] => none
  | x :: t => if x = c then some 0 else (findCharIdx t c).map (· + 1)

/-- Python `str.rfind(ch)` as an optional index. -/
def rfindCharIdx (l : List Char) (c : Char) : Option Nat :=
  match findCharIdx l.reverse c with
  | some i => some (l.length - 1 - i)
  | none => none

/-- The naive depth-counting delimiter scan of `_parse_json_response`:
walk from position `i`, incrementing on the open delimiter and decrementing
on the close delimiter, returning the exclusive end index when the counter
reaches zero.  `none` when the counter never reaches zero (the source then
leaves `json_end = json_start`). -/
def scanBalancedAux (chars : List Char) (i : Nat) (depth : Int) (o c : Char) :
    Option Nat :=
  match chars with
  | [] => none
  | x :: rest =>
    if x = o then scanBalancedAux rest (i + 1) (depth + 1) o c
    else if x = c then
      if depth - 1 = 0 then some (i + 1)
      else scanBalancedAux rest (i + 1) (depth - 1) o c
    else scanBalancedAux rest (i + 1) depth o c

/-- Balanced-delimiter scan starting at index `start`. -/
def scanBalanced (l : List Char) (start : Nat) (o c : Char) : Option Nat :=
  scanBalancedAux (l.drop start) start 0 o c

/-- Python slice `l[a:b]` for `a ≤ b`. -/
def pySlice (l : List Char) (a b : Nat) : List Char := (l.drop a).take (b - a)

/-- `BaseExtractor._extract_reasoning`: the stripped text of `full` before
index `s` and after index `e` (empty when the corresponding side is empty).
The source passes `response_text` as `full` but, in the fenced case,
indices computed on the fence-stripped text. -/
def extractReasoning (full : List Char) (s e : Nat) : String × String :=
  (if 0 < s then String.mk (pyStripList (full.take s)) else "",
   if e < full.length then String.mk (pyStripList (full.drop e)) else "")

/-- Python truthiness of a parsed JSON value. -/
def pyTruthy : Json → Bool
  | .null => false
  | .bool b => b
  | .num m _ _ => m != 0
  | .str s => !s.isEmpty
  | .arr xs => !xs.isEmpty
  | .obj fs => !fs.isEmpty

/-- The array-mode fallback of `_parse_json_response`: look for a single
object between the first brace and the last closing brace of the
fence-stripped text and wrap it in a one-element list; a parse failure there
is caught by the outer handler, which returns `[]` together with whatever
`reasoning_data` already holds. -/
def arrayFallback (jt full : List Char) (cur : String × String) :
    Json × (String × String) :=
  match findCharIdx jt '{', rfindCharIdx jt '}' with
  | some st, some last =>
    if st ≤ last then
      let en := last + 1
      let r := extractReasoning full st en
      match jsonLoads (String.mk (pySlice jt st en)) with
      | .ok v => ((if pyTruthy v then Json.arr [v] else Json.arr []), r)
      | .error _ => (Json.arr [], r)
    else (Json.arr [], cur)
  | some _, none => (Json.arr [], cur)
  | none, _ => (Json.arr [], cur)

/-- `BaseExtractor._parse_json_response`: strip a markdown fence, locate the
first opening delimiter, scan for its balanced close, parse the span with
`json.loads`, and report the text around the span as before/after
reasoning.  Object mode returns `(\x7b\x7d, empty reasoning)` when no span
is located, and `(\x7b\x7d, located reasoning)` when the located span fails
to parse; array mode falls back to wrapping a single object.  The reasoning
indices are those of the fence-stripped text applied to the original text,
exactly as in the source. -/
def parseJsonResponse (resp : String) (isArray : Bool) :
    Json × (String × String) :=
  let full := resp.data
  let jt := fenceStrip full
  if isArray then
    match findCharIdx jt '[' with
    | some st =>
      match scanBalanced jt st '[' ']' with
      | some en =>
        let r := extractReasoning full st en
        match jsonLoads (String.mk (pySlice jt st en)) with
        | .ok v => (v, r)
        | .error _ => arrayFallback jt full r
      | none => arrayFallback jt full ("", "")
    | none => arrayFallback jt full ("", "")
  else
    match findCharIdx jt '{' with
    | some st =>
      match scanBalanced jt st '{' '}' with
      | some en =>
        let r := extractReasoning full st en
        match jsonLoads (String.mk (pySlice jt st en)) with
        | .ok v => (v, r)
        | .error _ => (Json.obj [], r)
      | none => (Json.obj [], ("", ""))
    | none => (Json.obj [], ("", ""))

/-! ## `InvoiceExtractor._clean_amount` -/

/-- The character class of the symbol-stripping regex in `_clean_amount`,
`[kr$€£,:SEK\s]`: the letters k, r, S, E, K, the dollar, euro and pound
signs, comma, colon, and whitespace. -/
def stripAmountChar (c : Char) : Bool :=
  c == 'k' || c == 'r' || c == '$' || c == Char.ofNat 0x20ac ||
  c == Char.ofNat 0xa3 || c == ',' || c == ':' || c == 'S' || c == 'E' ||
  c == 'K' || pyIsSpace c

/-- Length of Python `cleaned.split(sep)[-1]` for a single comma separator:
the segment after the last comma (the whole string when no comma). -/
def lastSegAfterCommaLen (l : List Char) : Nat :=
  (l.reverse.takeWhile fun c => c != ',').length

/-- Python `float(s)` on an already-whitespace-free string: optional sign,
decimal digits with an optional point (at least one digit overall), and an
optional exponent part.  Returns the exact decimal value as mantissa and
power-of-ten exponent.  The `inf`/`nan` spellings and digit-group
underscores Python also accepts are not modelled; they cannot be produced
from amounts the program handles. -/
def parsePyFloat (l : List Char) : Option (Int × Int) :=
  let (neg, l1) :=
    match l with
    | c :: r => if c = '-' then (true, r) else if c = '+' then (false, r) else (false, l)
    | [] => (false, [])
  let ip := l1.takeWhile Char.isDigit
  let l2 := l1.drop ip.length
  let (fp, l3) :=
    match l2 with
    | '.' :: r => (r.takeWhile Char.isDigit, r.drop (r.takeWhile Char.isDigit).length)
    | _ => ([], l2)
  if ip.isEmpty && fp.isEmpty then none
  else
    let (ex, l4) :=
      match l3 with
      | e :: r =>
        if e = 'e' || e = 'E' then
          match r with
          | s :: r2 =>
            if s = '+' || s = '-' then
              let ds := r2.takeWhile Char.isDigit
              if ds.isEmpty then ((0 : Int), l3)
              else ((if s = '-' then -(digitsToNat ds : Int) else (digitsToNat ds : Int)),
                    r2.drop ds.length)
            else
              let ds := r.takeWhile Char.isDigit
              if ds.isEmpty then ((0 : Int), l3)
              else ((digitsToNat ds : Int), r.drop ds.length)
          | [] => ((0 : Int), l3)
        else ((0 : Int), l3)
      | [] => ((0 : Int), l3)
    if l4.isEmpty then
      let mantNat := digitsToNat (ip ++ fp)
      some ((if neg then -(mantNat : Int) else (mantNat : Int)), ex - (fp.length : Int))
    else none

/-- Remove factors of ten from `m * 10 ^ (-k)` while the fractional part has
trailing zero digits. -/
def stripTrailingZeros (m : Int) (k : Nat) : Int × Nat :=
  match k with
  | 0 => (m, 0)
  | k + 1 => if m % 10 = 0 && m != 0 then stripTrailingZeros (m / 10) k else (m, k + 1)

/-- Python `str(x)` for a float with exact decimal value `m * 10 ^ e`:
the shortest fixed-point decimal, always keeping one fractional digit
(`25.0`, not `25`).  Exact for values whose decimal needs at most 16
significant digits and magnitude below 1e16, which covers the amounts the
program normalizes (Python switches to exponent display beyond that). -/
def formatPyFloat (m : Int) (e : Int) : String :=
  if m = 0 then "0.0"
  else
    let me : Int × Int := if 0 < e then (m * (10 : Int) ^ e.toNat, 0) else (m, e)
    let k := (-me.2).toNat
    let mk2 := stripTrailingZeros me.1 k
    if mk2.2 = 0 then toString mk2.1 ++ ".0"
    else
      let sign := if mk2.1 < 0 then "-" else ""
      let a := mk2.1.natAbs
      let p := (10 : Nat) ^ mk2.2
      let fs := toString (a % p)
      sign ++ toString (a / p) ++ "." ++
        String.mk (List.replicate (mk2.2 - fs.length) '0') ++ fs

/-- The body of `InvoiceExtractor._clean_amount` after the emptiness check:
strip the `[kr$€£,:SEK\s]` character class (note that this removes every
comma), apply the decimal-separator rules on the stripped text, parse as
float and render; `none` on parse failure (the ValueError branch). -/
def cleanAmountCore (s : String) : Option String :=
  let cleaned := s.data.filter fun c => !stripAmountChar c
  let cleaned2 :=
    if cleaned.contains '.' && cleaned.contains ',' then
      (cleaned.filter fun c => c != '.').map fun c => if c = ',' then '.' else c
    else if cleaned.contains ',' && lastSegAfterCommaLen cleaned == 2 then
      cleaned.map fun c => if c = ',' then '.' else c
    else cleaned
  (parsePyFloat cleaned2).map fun me => formatPyFloat me.1 me.2

/-- `InvoiceExtractor._clean_amount` on a string argument: empty input
returns empty; on parse failure the original string is returned. -/
def cleanAmount (s : String) : String :=
  if s = "" then ""
  else
    match cleanAmountCore s with
    | some r => r
    | none => s

/-! ## `InvoiceExtractor._clean_date` -/

/-- The anchored prefix test `re.match(r'\d{4}-\d{2}-\d{2}', date_str)`. -/
def ymdPrefix (l : List Char) : Bool :=
  match l with
  | a :: b :: c :: d :: e :: f :: g :: h :: i :: j :: _ =>
    a.isDigit && b.isDigit && c.isDigit && d.isDigit && e == '-' &&
    f.isDigit && g.isDigit && h == '-' && i.isDigit && j.isDigit
  | _ => false

/-- Match exactly four digits (regex `\d\x7b4\x7d`). -/
def grab4 (l : List Char) : Option (List Char × List Char) :=
  match l with
  | a :: b :: c :: d :: rest =>
    if a.isDigit && b.isDigit && c.isDigit && d.isDigit then
      some ([a, b, c, d], rest)
    else none
  | _ => none

/-- The backtracking candidates of a greedy `\d\x7b1,2\x7d`: two digits
first, then one. -/
def grab12 (l : List Char) : List (List Char × List Char) :=
  match l with
  | a :: b :: rest =>
    if a.isDigit && b.isDigit then [([a, b], rest), ([a], b :: rest)]
    else if a.isDigit then [([a], b :: rest)]
    else []
  | [a] => if a.isDigit then [([a], [])] else []
  | [] => []

/-- Try continuations over backtracking candidates in order. -/
def firstSome {α : Type} (cands : List (List Char × List Char))
    (k : List Char × List Char → Option α) : Option α :=
  match cands with
  | [] => none
  | c :: cs =>
    match k c with
    | some r => some r
    | none => firstSome cs k

/-- One attempt of `(\d\x7b4\x7d)-(\d\x7b1,2\x7d)-(\d\x7b1,2\x7d)` at a
fixed position. -/
def tryP1At (l : List Char) : Option (List Char × List Char × List Char) :=
  match grab4 l with
  | some yr =>
    match yr.2 with
    | '-' :: r2 =>
      firstSome (grab12 r2) fun mr =>
        match mr.2 with
        | '-' :: r4 => firstSome (grab12 r4) fun dr => some (yr.1, mr.1, dr.1)
        | _ => none
    | _ => none
  | none => none

/-- One attempt of `(\d\x7b1,2\x7d)/(\d\x7b1,2\x7d)/(\d\x7b4\x7d)` at a
fixed position. -/
def tryP2At (l : List Char) : Option (List Char × List Char × List Char) :=
  firstSome (grab12 l) fun ar =>
    match ar.2 with
    | '/' :: r2 =>
      firstSome (grab12 r2) fun br =>
        match br.2 with
        | '/' :: r4 => (grab4 r4).map fun yr => (ar.1, br.1, yr.1)
        | _ => none
    | _ => none

/-- One attempt of `(\d\x7b1,2\x7d)\.(\d\x7b1,2\x7d)\.(\d\x7b4\x7d)` at a
fixed position. -/
def tryP3At (l : List Char) : Option (List Char × List Char × List Char) :=
  firstSome (grab12 l) fun ar =>
    match ar.2 with
    | '.' :: r2 =>
      firstSome (grab12 r2) fun br =>
        match br.2 with
        | '.' :: r4 => (grab4 r4).map fun yr => (ar.1, br.1, yr.1)
        | _ => none
    | _ => none

/-- One attempt of `(\d\x7b4\x7d)(\d\x7b2\x7d)(\d\x7b2\x7d)` at a fixed
position. -/
def tryP4At (l : List Char) : Option (List Char × List Char × List Char) :=
  match grab4 l with
  | some yr =>
    match yr.2 with
    | a :: b :: c :: d :: _ =>
      if a.isDigit && b.isDigit && c.isDigit && d.isDigit then
        some (yr.1, [a, b], [c, d])
      else none
    | _ => none
  | none => none

/-- `re.search`: try the pattern at each position, leftmost match wins. -/
def searchPat {α : Type} (tryAt : List Char → Option α) : List Char → Option α
  | [] => tryAt []
  | c :: t =>
    match tryAt (c :: t) with
    | some r => some r
    | none => searchPat tryAt t

/-- Left-pad a decimal rendering with zeros, as `f"..{n:0Nd}"` does. -/
def padLeftZeros (s : String) (w : Nat) : String :=
  String.mk (List.replicate (w - s.length) '0') ++ s

/-- `f"\x7bint(year):04d\x7d-\x7bint(month):02d\x7d-\x7bint(day):02d\x7d"`. -/
def fmtYmd (y m d : List Char) : String :=
  padLeftZeros (toString (digitsToNat y)) 4 ++ "-" ++
  padLeftZeros (toString (digitsToNat m)) 2 ++ "-" ++
  padLeftZeros (toString (digitsToNat d)) 2

/-- `InvoiceExtractor._clean_date`: empty input returns empty; a string with
a `YYYY-MM-DD` prefix is returned unchanged; otherwise the four date
patterns are searched in order, the first group of length four selecting
year-first interpretation and otherwise a `/` anywhere in the string
selecting US month/day order against European day/month order; if nothing
matches, the original string is returned unchanged.  (The source catches
ValueError around the int conversions, but the captured groups are always
digit strings, so that handler is unreachable.) -/
def cleanDate (s : String) : String :=
  if s = "" then ""
  else if ymdPrefix s.data then s
  else
    match searchPat tryP1At s.data with
    | some g => fmtYmd g.1 g.2.1 g.2.2
    | none =>
      match searchPat tryP2At s.data with
      | some g =>
        if s.data.contains '/' then fmtYmd g.2.2 g.1 g.2.1
        else fmtYmd g.2.2 g.2.1 g.1
      | none =>
        match searchPat tryP3At s.data with
        | some g =>
          if s.data.contains '/' then fmtYmd g.2.2 g.1 g.2.1
          else fmtYmd g.2.2 g.2.1 g.1
        | none =>
          match searchPat tryP4At s.data with
          | some g => fmtYmd g.1 g.2.1 g.2.2
          | none => s

/-! ## Extractor records and the `extract` state machines -/

/-- The email metadata fields read by the record formatters
(`email_metadata.get` with empty-string defaults). -/
structure EmailMeta where
  id : String
  subject : String
  sender : String
  date : String

/-- Python `claude_data.get(k)` on a parsed JSON object. -/
def jget (j : Json) (k : String) : Option Json :=
  match j with
  | .obj fs => fs.lookup k
  | _ => none

/-- Python `claude_data.get(k, d)`. -/
def jgetD (j : Json) (k : String) (d : Json) : Json := (jget j k).getD d

/-- Python `(claude_data.get(k) or '').strip()`: a missing or falsy value
gives the empty string; a truthy non-string value has no `.strip()` and
raises AttributeError. -/
def pyGetOrStrip (j : Json) (k : String) : Except String String :=
  let v := jgetD j k Json.null
  if !pyTruthy v then .ok ""
  else
    match v with
    | .str s => .ok (pyStrip s)
    | _ => .error "AttributeError: strip"

/-- Python `(claude_data.get('currency') or 'SEK').upper()`. -/
def pyGetCurrencyUpper (j : Json) : Except String String :=
  let v := jgetD j "currency" Json.null
  if !pyTruthy v then .ok (pyUpper "SEK")
  else
    match v with
    | .str s => .ok (pyUpper s)
    | _ => .error "AttributeError: upper"

/-- Python `str()` of a parsed JSON value as consumed by `_clean_amount`.
Container reprs are abbreviated: they can never parse as floats (they start
with a bracket), so `_clean_amount` always falls back to the original value
for them, which is what the model preserves. -/
def pyStr (v : Json) : String :=
  match v with
  | .null => "None"
  | .bool b => if b then "True" else "False"
  | .str s => s
  | .num m e f => if f then formatPyFloat m e else toString m
  | .arr _ => "[...]"
  | .obj _ => "\x7b...\x7d"

/-- `InvoiceExtractor._clean_amount` as applied to
`claude_data.get('amount', '')`: a falsy value returns the empty string,
otherwise the string form is cleaned, with the original JSON value (not its
string form) returned on parse failure. -/
def cleanAmountJ (v : Json) : Json :=
  if !pyTruthy v then Json.str ""
  else
    match cleanAmountCore (pyStr v) with
    | some r => Json.str r
    | none => v

/-- `InvoiceExtractor._clean_date` as applied to a `claude_data` field:
a falsy value returns the empty string; `re.match` on a truthy non-string
raises TypeError. -/
def cleanDateJ (v : Json) : Except String Json :=
  if !pyTruthy v then .ok (Json.str "")
  else
    match v with
    | .str s => .ok (Json.str (cleanDate s))
    | _ => .error "TypeError: expected string or bytes-like object"

/-- One row of the invoice output (the dict built by the three invoice
record formatters).  Fields that always hold strings are typed as String;
fields copied verbatim from the model output keep their JSON value. -/
structure InvoiceRecord where
  email_id : String
  email_subject : String
  email_sender : String
  email_date : String
  email_backup_path : String
  extracted : Bool
  vendor : String
  invoice_number : String
  amount : Json
  currency : String
  due_date : Json
  invoice_date : Json
  ocr : String
  description : String
  confidence : Json
  claude_reasoning_before : String
  claude_reasoning_after : String
  human_evaluation : String
  human_feedback : String
  processing_timestamp : String

/-- `InvoiceExtractor._format_accepted_invoice_data`, with the dict fields
evaluated in source order; a TypeError/AttributeError on a malformed model
field aborts (to be caught by the `extract` handler). -/
def formatAcceptedInvoiceData (d : Json) (meta : EmailMeta)
    (reas : String × String) (backupPath now : String) :
    Except String InvoiceRecord := do
  let vendor ← pyGetOrStrip d "vendor"
  let invoiceNumber ← pyGetOrStrip d "invoice_number"
  let amount := cleanAmountJ (jgetD d "amount" (Json.str ""))
  let currency ← pyGetCurrencyUpper d
  let dueDate ← cleanDateJ (jgetD d "due_date" (Json.str ""))
  let invoiceDate ← cleanDateJ (jgetD d "invoice_date" (Json.str ""))
  let ocrVal ← pyGetOrStrip d "ocr"
  let description ← pyGetOrStrip d "description"
  .ok { email_id := meta.id, email_subject := meta.subject,
        email_sender := meta.sender, email_date := meta.date,
        email_backup_path := backupPath, extracted := true,
        vendor := vendor, invoice_number := invoiceNumber, amount := amount,
        currency := currency, due_date := dueDate, invoice_date := invoiceDate,
        ocr := ocrVal, description := description,
        confidence := jgetD d "confidence" (Json.num 0 0 true),
        claude_reasoning_before := reas.1, claude_reasoning_after := reas.2,
        human_evaluation := "", human_feedback := "",
        processing_timestamp := now }

/-- `InvoiceExtractor._format_rejected_invoice_data`. -/
def formatRejectedInvoiceData (d : Json) (meta : EmailMeta)
    (reas : String × String) (backupPath now : String) : InvoiceRecord :=
  { email_id := meta.id, email_subject := meta.subject,
    email_sender := meta.sender, email_date := meta.date,
    email_backup_path := backupPath, extracted := false,
    vendor := "", invoice_number := "", amount := Json.str "",
    currency := "", due_date := Json.str "", invoice_date := Json.str "",
    ocr := "", description := "",
    confidence := if pyTruthy d then jgetD d "confidence" (Json.num 0 0 true)
                  else Json.num 0 0 true,
    claude_reasoning_before := reas.1, claude_reasoning_after := reas.2,
    human_evaluation := "", human_feedback := "",
    processing_timestamp := now }

/-- `InvoiceExtractor._create_failed_processing_record`. -/
def createFailedInvoiceRecord (meta : EmailMeta)
    (backupPath errorMessage now : String) : InvoiceRecord :=
  { email_id := meta.id, email_subject := meta.subject,
    email_sender := meta.sender, email_date := meta.date,
    email_backup_path := backupPath, extracted := false,
    vendor := "", invoice_number := "", amount := Json.str "",
    currency := "", due_date := Json.str "", invoice_date := Json.str "",
    ocr := "", description := "", confidence := Json.num 0 0 true,
    claude_reasoning_before := "Processing failed: " ++ errorMessage,
    claude_reasoning_after := "",
    human_evaluation := "", human_feedback := "",
    processing_timestamp := now }

/-- `InvoiceExtractor.extract`.  External effects enter as parameters:
`promptOutcome` is the outcome of `_format_prompt_template` (which raises
ValueError on a missing template or placeholder), `backupPath` the value
returned by `_save_email_backup` (which never raises), and `response` the
text returned by `_call_claude` (which returns the empty string on any API
failure).  The try/except handler turns any raised error into a single
failed-processing record with an empty backup path. -/
def invoiceExtract (promptOutcome : Except String Unit)
    (backupPath : String) (response : String) (meta : EmailMeta)
    (now : String) : List InvoiceRecord :=
  match promptOutcome with
  | .error e => [createFailedInvoiceRecord meta "" ("Processing error: " ++ e) now]
  | .ok _ =>
    if response = "" then
      [createFailedInvoiceRecord meta backupPath "No response from Claude" now]
    else
      let pr := parseJsonResponse response false
      let data := match pr.1 with | Json.obj _ => pr.1 | _ => Json.obj []
      if pyTruthy data && pyTruthy (jgetD data "is_invoice" Json.null) then
        match formatAcceptedInvoiceData data meta pr.2 backupPath now with
        | .ok r => [r]
        | .error e => [createFailedInvoiceRecord meta "" ("Processing error: " ++ e) now]
      else [formatRejectedInvoiceData data meta pr.2 backupPath now]

/-- One row of the concert output. -/
structure ConcertRecord where
  email_id : String
  email_subject : String
  email_sender : String
  email_date : String
  email_backup_path : String
  extracted : Bool
  artist : Json
  venue : Json
  town : Json
  date : Json
  room : Json
  ticket_info : Json
  confidence : Json
  claude_reasoning_before : String
  claude_reasoning_after : String
  human_evaluation : String
  human_feedback : String
  processing_timestamp : String

/-- Python `'confidence' in concert`: key lookup on a dict, substring test
on a string, element test on a list, TypeError otherwise. -/
def pyContainsKey (c : Json) (k : String) : Except String Bool :=
  match c with
  | .obj fs => .ok (fs.any fun p => p.1 == k)
  | .str s => .ok (containsSub s.data k.data)
  | .arr xs => .ok (xs.any fun x => match x with | .str t => t == k | _ => false)
  | _ => .error "TypeError: argument is not iterable"

/-- The `if 'confidence' not in concert: concert['confidence'] = 0.8` step
of `ConcertExtractor.extract`; item assignment on a non-dict raises. -/
def setDefaultConfidence (c : Json) : Except String Json := do
  let has ← pyContainsKey c "confidence"
  if has then .ok c
  else
    match c with
    | .obj fs => .ok (Json.obj (objInsert fs "confidence" (Json.num 8 (-1) true)))
    | _ => .error "TypeError: item assignment"

/-- `ConcertExtractor._format_accepted_concert_data`; `.get` on a non-dict
raises AttributeError. -/
def formatAcceptedConcertData (c : Json) (meta : EmailMeta)
    (reas : String × String) (backupPath now : String) :
    Except String ConcertRecord :=
  match c with
  | .obj _ =>
    .ok { email_id := meta.id, email_subject := meta.subject,
          email_sender := meta.sender, email_date := meta.date,
          email_backup_path := backupPath, extracted := true,
          artist := jgetD c "artist" (Json.str ""),
          venue := jgetD c "venue" (Json.str ""),
          town := jgetD c "town" (Json.str ""),
          date := jgetD c "date" (Json.str ""),
          room := jgetD c "room" (Json.str ""),
          ticket_info := jgetD c "ticket_info" (Json.str ""),
          confidence := jgetD c "confidence" (Json.num 8 (-1) true),
          claude_reasoning_before := reas.1, claude_reasoning_after := reas.2,
          human_evaluation := "", human_feedback := "",
          processing_timestamp := now }
  | _ => .error "AttributeError: get"

/-- `ConcertExtractor._format_rejected_concert_data`. -/
def formatRejectedConcertData (meta : EmailMeta) (reas : String × String)
    (backupPath now : String) : ConcertRecord :=
  { email_id := meta.id, email_subject := meta.subject,
    email_sender := meta.sender, email_date := meta.date,
    email_backup_path := backupPath, extracted := false,
    artist := Json.str "", venue := Json.str "", town := Json.str "",
    date := Json.str "", room := Json.str "", ticket_info := Json.str "",
    confidence := Json.num 0 0 true,
    claude_reasoning_before := reas.1, claude_reasoning_after := reas.2,
    human_evaluation := "", human_feedback := "",
    processing_timestamp := now }

/-- `ConcertExtractor._create_failed_processing_record`. -/
def createFailedConcertRecord (meta : EmailMeta)
    (backupPath errorMessage now : String) : ConcertRecord :=
  { email_id := meta.id, email_subject := meta.subject,
    email_sender := meta.sender, email_date := meta.date,
    email_backup_path := backupPath, extracted := false,
    artist := Json.str "", venue := Json.str "", town := Json.str "",
    date := Json.str "", room := Json.str "", ticket_info := Json.str "",
    confidence := Json.num 0 0 true,
    claude_reasoning_before := "Processing failed: " ++ errorMessage,
    claude_reasoning_after := "",
    human_evaluation := "", human_feedback := "",
    processing_timestamp := now }

/-- The per-concert loop body of `ConcertExtractor.extract`: default the
confidence, then format; the first raised error aborts the whole loop. -/
def formatConcerts (cs : List Json) (meta : EmailMeta)
    (reas : String × String) (backupPath now : String) :
    Except String (List ConcertRecord) :=
  match cs with
  | [] => .ok []
  | c :: rest => do
    let c2 ← setDefaultConfidence c
    let r ← formatAcceptedConcertData c2 meta reas backupPath now
    let rs ← formatConcerts rest meta reas backupPath now
    .ok (r :: rs)

/-- `ConcertExtractor.extract`, with external effects as parameters as in
`invoiceExtract`.  A non-empty parsed array yields one record per parsed
concert; an empty parse yields one rejected record; a missing response or
raised error yields one failed record. -/
def concertExtract (promptOutcome : Except String Unit)
    (backupPath : String) (response : String) (meta : EmailMeta)
    (now : String) : List ConcertRecord :=
  match promptOutcome with
  | .error e => [createFailedConcertRecord meta "" ("Processing error: " ++ e) now]
  | .ok _ =>
    if response = "" then
      [createFailedConcertRecord meta backupPath "No response from Claude" now]
    else
      let pr := parseJsonResponse response true
      let concerts := match pr.1 with | Json.arr xs => xs | _ => []
      if !concerts.isEmpty then
        match formatConcerts concerts meta pr.2 backupPath now with
        | .ok rs => rs
        | .error e => [createFailedConcertRecord meta "" ("Processing error: " ++ e) now]
      else [formatRejectedConcertData meta pr.2 backupPath now]

/-! ## `EmailCategorizationAgent` -/

/-- The pydantic output schema of the categorization agent.  Confidence is a
float in [0,1]; floats are modelled as exact rationals. -/
structure EmailCategorizationOutput where
  category : String
  subcategory : String
  confidence : ℚ
  reasoning : String
deriving DecidableEq

/-- The slice of the YAML configuration the agent reads: category names with
their subcategory names (keyword lists and descriptions only feed the
prompt, not the validation). -/
structure CategorizationConfig where
  categories : List (String × List String)

/-- `EmailCategorizationAgent._get_valid_combinations_from_config`: every
(category, subcategory) pair listed in the configuration. -/
def getValidCombinationsFromConfig (cfg : CategorizationConfig) :
    List (String × String) :=
  cfg.categories.flatMap fun p => p.2.map fun sub => (p.1, sub)

/-- `EmailCategorizationAgent._validate_categorization_result`. -/
def validateCategorizationResult (valid : List (String × String))
    (r : EmailCategorizationOutput) : Bool :=
  valid.contains (r.category, r.subcategory)

/-- `EmailCategorizationAgent._get_fallback_categorization`. -/
def fallbackCategorization : EmailCategorizationOutput :=
  { category := "Other", subcategory := "Rest", confidence := 1 / 10,
    reasoning := "Fallback categorization due to invalid category/subcategory combination" }

/-- `EmailCategorizationAgent.categorize_email`: the outcome of
`self.atomic_agent.run` enters as a parameter; an exception anywhere in the
body returns `None`, and an invalid (category, subcategory) pair is
replaced by the fixed fallback before the result is returned. -/
def categorizeEmail (valid : List (String × String))
    (runOutcome : Except String EmailCategorizationOutput) :
    Option EmailCategorizationOutput :=
  match runOutcome with
  | .error _ => none
  | .ok r =>
    some (if validateCategorizationResult valid r then r else fallbackCategorization)

/-! ## `EmailDatabaseManager.store_email` and `CSVExporter.append_invoices` -/

/-- A calendar timestamp (year, month, day, hour, minute, second). -/
structure DateTimeT where
  year : Nat
  month : Nat
  day : Nat
  hour : Nat
  minute : Nat
  second : Nat
deriving DecidableEq

/-- Days in a month, with leap years, as validated by the datetime
constructor that `strptime` builds. -/
def daysInMonth (y m : Nat) : Nat :=
  if m = 2 then
    if y % 4 = 0 && (y % 100 != 0 || y % 400 = 0) then 29 else 28
  else if m = 4 || m = 6 || m = 9 || m = 11 then 30
  else 31

/-- `datetime.strptime(s, "%Y-%m-%d %H:%M:%S")` for the zero-padded form the
program writes (the lenient single-digit fields strptime also accepts never
occur here); `none` models the ValueError. -/
def parseDateTime (s : String) : Option DateTimeT :=
  match s.data with
  | [y1, y2, y3, y4, h1, m1, m2, h2, d1, d2, sp, t1, t2, c1, n1, n2, c2, s1, s2] =>
    if y1.isDigit && y2.isDigit && y3.isDigit && y4.isDigit && h1 == '-' &&
       m1.isDigit && m2.isDigit && h2 == '-' && d1.isDigit && d2.isDigit &&
       sp == ' ' && t1.isDigit && t2.isDigit && c1 == ':' && n1.isDigit &&
       n2.isDigit && c2 == ':' && s1.isDigit && s2.isDigit then
      let y := digitsToNat [y1, y2, y3, y4]
      let mo := digitsToNat [m1, m2]
      let d := digitsToNat [d1, d2]
      let h := digitsToNat [t1, t2]
      let mi := digitsToNat [n1, n2]
      let se := digitsToNat [s1, s2]
      if 1 ≤ mo && mo ≤ 12 && 1 ≤ d && d ≤ daysInMonth y mo && h ≤ 23 &&
         mi ≤ 59 && se ≤ 59 && 1 ≤ y then
        some { year := y, month := mo, day := d, hour := h, minute := mi, second := se }
      else none
    else none
  | _ => none

/-- The input dict handed to `store_email` (the fields it reads). -/
structure EmailData where
  id : String
  date : Option String
  sender : String
  subject : String
  body : String
  pdfText : String

/-- One row of the `emails` table as written by `store_email`. -/
structure EmailRow where
  email_id : String
  date : DateTimeT
  sender : String
  subject : String
  body_markdown : String
  body_clean : String
  pdf_text : String
  raw_email : String

/-- Python `text.split(sep)` for a one-character separator, on code points
(structural, so that stored rows evaluate by kernel reduction). -/
def splitOnCharAux (sep : Char) : List Char → List Char → List (List Char)
  | [], cur => [cur.reverse]
  | c :: t, cur =>
    if c = sep then cur.reverse :: splitOnCharAux sep t []
    else splitOnCharAux sep t (c :: cur)

/-- Join code-point lines with a newline, Python `"\n".join(lines)`. -/
def joinNewline : List (List Char) → List Char
  | [] => []
  | [x] => x
  | x :: y :: t => x ++ Char.ofNat 10 :: joinNewline (y :: t)

/-- `EmailDatabaseManager._clean_text`: strip every line and drop the empty
ones. -/
def dbCleanText (s : String) : String :=
  String.mk (joinNewline
    (((splitOnCharAux (Char.ofNat 10) s.data []).map pyStripList).filter
      fun t => t ≠ []))

/-- `EmailDatabaseManager.store_email` on a database modelled as the list of
rows in insertion order.  `conv` is the html2text collaborator and `dumps`
the json serialization of the raw dict (external to the dedup logic);
`now` is `datetime.now()`.  An email whose id is already present is left
alone before anything else happens; a malformed non-empty date raises
(ValueError from strptime). -/
def storeEmail (conv : String → String) (dumps : EmailData → String)
    (now : DateTimeT) (db : List EmailRow) (d : EmailData) :
    Except String (List EmailRow) :=
  if db.any fun r => r.email_id == d.id then .ok db
  else
    let bodyMarkdown := conv d.body
    let bodyClean := dbCleanText bodyMarkdown
    let dateOpt := match d.date with
      | some ds => if ds = "" then none else some ds
      | none => none
    match dateOpt with
    | some ds =>
      match parseDateTime ds with
      | some t =>
        .ok (db ++ [{ email_id := d.id, date := t, sender := d.sender,
                      subject := d.subject, body_markdown := bodyMarkdown,
                      body_clean := bodyClean, pdf_text := d.pdfText,
                      raw_email := dumps d }])
      | none => .error "ValueError: time data does not match format"
    | none =>
      .ok (db ++ [{ email_id := d.id, date := now, sender := d.sender,
                    subject := d.subject, body_markdown := bodyMarkdown,
                    body_clean := bodyClean, pdf_text := d.pdfText,
                    raw_email := dumps d }])

/-- One CSV row of the invoice output file.  Only the id and date drive the
dedup and ordering logic; the remaining columns ride along (the column-union
padding of `append_invoices` adds empty strings and never touches
`email_id`). -/
structure CsvRow where
  email_id : String
  email_date : String
  rest : List (String × String)

/-- Ordinal for the `pd.to_datetime(..., errors="coerce")` sort key:
`none` is NaT. -/
def csvDateKey (r : CsvRow) : Option Nat :=
  (parseDateTime r.email_date).map fun t =>
    ((((t.year * 12 + t.month) * 31 + t.day) * 24 + t.hour) * 60 + t.minute) * 60
      + t.second

/-- Output-order comparison of `sort_values('email_date', ascending=False)`:
later dates first, NaT rows last. -/
def csvRowBefore (a b : CsvRow) : Bool :=
  match csvDateKey a, csvDateKey b with
  | some x, some y => y ≤ x
  | some _, none => true
  | none, some _ => false
  | none, none => true

/-- Insert into a list sorted by `csvRowBefore`. -/
def insertRowDesc (r : CsvRow) : List CsvRow → List CsvRow
  | [] => [r]
  | x :: xs => if csvRowBefore r x then r :: x :: xs else x :: insertRowDesc r xs

/-- Sort rows by descending date, NaT last (pandas leaves the relative order
of equal keys unspecified; this model fixes one). -/
def sortRowsDesc (rows : List CsvRow) : List CsvRow :=
  match rows with
  | [] => []
  | r :: rest => insertRowDesc r (sortRowsDesc rest)

/-- `CSVExporter.load_existing_invoices`: the `email_id` column of the
existing file, empty when the file does not exist. -/
def loadExistingInvoices (csv : Option (List CsvRow)) : List String :=
  match csv with
  | none => []
  | some rows => rows.map fun r => r.email_id

/-- `CSVExporter.append_invoices` acting on the output file state (`none`
when the file does not exist): drop records whose id already appears in the
file, return unchanged when nothing remains, otherwise append and sort by
descending date (`export_invoices` also sorts when creating the file). -/
def appendInvoices (csv : Option (List CsvRow)) (newData : List CsvRow) :
    Option (List CsvRow) :=
  if newData.isEmpty then csv
  else
    let existingIds := loadExistingInvoices csv
    let filtered := newData.filter fun r => !existingIds.contains r.email_id
    if filtered.isEmpty then csv
    else
      match csv with
      | some rows => some (sortRowsDesc (rows ++ filtered))
      | none => some (sortRowsDesc filtered)

/-! ## `retry_with_backoff` -/

/-- The rate-limit test of `retry_with_backoff`:
`"429" in error_str or "rate_limit_error" in error_str.lower()`. -/
def isRateLimitError (e : String) : Bool :=
  containsSub e.data ("429").data ||
  containsSub (pyLower e).data ("rate_limit_error").data

/-- The `for attempt in range(max_retries)` loop of `retry_with_backoff`.
`calls n` is the outcome of the n-th invocation of the wrapped function;
the returned list records the sleeps performed (2 ^ attempt seconds before
each retry).  Running off the end of the loop raises the
"Retry logic error" guard. -/
def retryGo {α : Type} (calls : Nat → Except String α) (maxRetries attempt : Nat) :
    Nat → Except String α × List Nat
  | 0 => (.error "Retry logic error", [])
  | fuel + 1 =>
    match calls attempt with
    | .ok v => (.ok v, [])
    | .error e =>
      if isRateLimitError e then
        if attempt < maxRetries - 1 then
          let w := 2 ^ attempt
          let res := retryGo calls maxRetries (attempt + 1) fuel
          (res.1, w :: res.2)
        else (.error e, [])
      else (.error e, [])

/-- `retry_with_backoff(func, *args, max_retries=3)`; the source default for
`maxRetries` is 3. -/
def retryWithBackoff {α : Type} (calls : Nat → Except String α)
    (maxRetries : Nat) : Except String α × List Nat :=
  retryGo calls maxRetries 0 maxRetries

/-! ## Claim theorems -/

/-- C7: text normalization is idempotent: for every input string `x`,
`_clean_text(_clean_text(x)) == _clean_text(x)`. -/
theorem claim_C7_cleanText_idempotent (x : String) :
    cleanText (cleanText x) = cleanText x :=
  cleanText_idem x

/-- C2 counterexample: the claim predicts `"1.250,50 kr"` normalizes to
`1250.50`, but `_clean_amount` returns `"1.2505"`: the symbol-stripping
regex removes the comma before the separator rules run. -/
theorem claim_C2_counterexample :
    cleanAmount "1.250,50 kr" = "1.2505" ∧
    cleanAmount "1.250,50 kr" ≠ "1250.5" ∧
    cleanAmount "1.250,50 kr" ≠ "1250.50" := by
  refine ⟨rfl, ?_, ?_⟩ <;> decide

/-- C2 amended: the symbol-stripping step removes every comma (so the
both-separators rule and the comma-decimal rule can never apply to the
stripped text), and the normalization yields `"1.2505"` for
`"1.250,50 kr"`, `"25.0"` for `"25.00"`, `"100.0"` for `"€100"`, with the
original string returned unchanged on parse failure and the empty string
for empty input. -/
theorem claim_C2_amended :
    (∀ s : String, Char.ofNat 44 ∉ s.data.filter fun c => !stripAmountChar c) ∧
    cleanAmount "1.250,50 kr" = "1.2505" ∧
    cleanAmount "25.00" = "25.0" ∧
    cleanAmount "€100" = "100.0" ∧
    cleanAmount "not an amount" = "not an amount" ∧
    cleanAmount "" = "" := by
  refine ⟨?_, rfl, rfl, rfl, by decide, rfl⟩
  intro s h
  have h2 := (List.mem_filter.mp h).2
  simp only [stripAmountChar] at h2
  exact absurd h2 (by decide)

/-- C3: evaluation of `_parse_json_response` at the completion string of the
claim.  The JSON is parsed, but the reasoning slices apply indices computed
on the fence-stripped text to the original text, so the before-reasoning is
`"S"` (index 1 of the original) and the after-reasoning starts inside the
word "reasoning" and contains the fence and the JSON span itself, instead of
the prose before/after the span. -/
theorem claim_C3_code_behavior :
    parseJsonResponse "Some reasoning text\n```json\n\x7b\"a\":1\x7d\n```\nMore text" false =
      (Json.obj [("a", Json.num 1 0 false)],
       ("S", "soning text\n```json\n\x7b\"a\":1\x7d\n```\nMore text")) ∧
    "S" ≠ pyStrip "Some reasoning text" := by
  exact ⟨rfl, by decide⟩

/-- C4 counterexample: on an input whose located brace span fails to parse,
`_parse_json_response` returns the empty object but with NON-empty
reasoning fields, contradicting the claim that parse failures come with
empty reasoning. -/
theorem claim_C4_counterexample :
    parseJsonResponse "xx\x7bbad\x7dyy" false = (Json.obj [], ("xx", "yy")) ∧
    (("xx", "yy") : String × String) ≠ ("", "") := by
  exact ⟨rfl, by decide⟩

/-- C4 amended: when no opening delimiter is found (`str.find` returns -1:
no brace in object mode; neither bracket nor brace in array mode), the
result is the empty object/array with empty reasoning, and the function is
total (never raises).  When a balanced span is located in object mode but
fails to parse, the result is the empty object together with the reasoning
computed around the located span, which need not be empty. -/
theorem claim_C4_amended :
    (∀ s : String, findCharIdx (fenceStrip s.data) '{' = none →
      parseJsonResponse s false = (Json.obj [], ("", ""))) ∧
    (∀ s : String, findCharIdx (fenceStrip s.data) '[' = none →
      findCharIdx (fenceStrip s.data) '{' = none →
      parseJsonResponse s true = (Json.arr [], ("", ""))) ∧
    (∀ (s : String) (st en : Nat) (e : String),
      findCharIdx (fenceStrip s.data) '{' = some st →
      scanBalanced (fenceStrip s.data) st '{' '}' = some en →
      jsonLoads (String.mk (pySlice (fenceStrip s.data) st en)) = .error e →
      parseJsonResponse s false = (Json.obj [], extractReasoning s.data st en)) := by
  refine ⟨?_, ?_, ?_⟩
  · intro s h
    simp [parseJsonResponse, h]
  · intro s h1 h2
    simp [parseJsonResponse, arrayFallback, h1, h2]
  · intro s st en e h1 h2 h3
    simp [parseJsonResponse, h1, h2, h3]

/-- Witness for the C4 amended theorem at concrete inputs. -/
theorem claim_C4_amended_witness :
    parseJsonResponse "no delimiters here" false = (Json.obj [], ("", "")) ∧
    parseJsonResponse "no delimiters here" true = (Json.arr [], ("", "")) ∧
    parseJsonResponse "xx\x7bbad\x7dyy" false = (Json.obj [], ("xx", "yy")) := by
  refine ⟨claim_C4_amended.1 "no delimiters here" rfl,
          claim_C4_amended.2.1 "no delimiters here" rfl rfl, ?_⟩
  have h := claim_C4_amended.2.2 "xx\x7bbad\x7dyy" 2 7 "Expecting property name"
    rfl rfl rfl
  rw [h]
  rfl

/-- C5: a model categorization whose (category, subcategory) pair is not in
the valid-combinations set derived from the configuration is replaced by the
fixed fallback (category "Other", subcategory "Rest", confidence 0.1, with a
reasoning string naming the substitution); the raw combination is never
returned to the caller. -/
theorem claim_C5_categorization_fallback (cfg : CategorizationConfig)
    (r : EmailCategorizationOutput)
    (h : (r.category, r.subcategory) ∉ getValidCombinationsFromConfig cfg) :
    categorizeEmail (getValidCombinationsFromConfig cfg) (.ok r) =
      some fallbackCategorization ∧
    fallbackCategorization.category = "Other" ∧
    fallbackCategorization.subcategory = "Rest" ∧
    fallbackCategorization.confidence = 1 / 10 ∧
    fallbackCategorization.reasoning =
      "Fallback categorization due to invalid category/subcategory combination" := by
  refine ⟨?_, rfl, rfl, rfl, rfl⟩
  have hc : (getValidCombinationsFromConfig cfg).contains
      (r.category, r.subcategory) = false := by
    rw [Bool.eq_false_iff]
    intro hcon
    exact h (List.mem_of_elem_eq_true hcon)
  simp [categorizeEmail, validateCategorizationResult, hc]
  exact fun hmem => absurd hmem h

/-- Witness for C5 at a concrete configuration and model output. -/
theorem claim_C5_witness :
    categorizeEmail
      (getValidCombinationsFromConfig { categories := [("Work", ["Stuff"])] })
      (.ok { category := "Bogus", subcategory := "Nonsense", confidence := 9 / 10,
             reasoning := "made up" }) = some fallbackCategorization :=
  (claim_C5_categorization_fallback { categories := [("Work", ["Stuff"])] }
    { category := "Bogus", subcategory := "Nonsense", confidence := 9 / 10,
      reasoning := "made up" } (by decide)).1

/-- C6: `_clean_date` passes through any string with a `YYYY-MM-DD` prefix
match, normalizes `"15.01.2025"`, `"01/15/2025"` and `"2025-1-5"` to ISO
form, and returns the input unchanged (without raising) when the anchored
check and all four search patterns fail, as on `"next Tuesday"`. -/
theorem claim_C6_cleanDate :
    (∀ s : String, ymdPrefix s.data = true → cleanDate s = s) ∧
    cleanDate "15.01.2025" = "2025-01-15" ∧
    cleanDate "01/15/2025" = "2025-01-15" ∧
    cleanDate "2025-1-5" = "2025-01-05" ∧
    cleanDate "next Tuesday" = "next Tuesday" ∧
    (∀ s : String, ymdPrefix s.data = false →
      searchPat tryP1At s.data = none → searchPat tryP2At s.data = none →
      searchPat tryP3At s.data = none → searchPat tryP4At s.data = none →
      cleanDate s = s) := by
  refine ⟨?_, rfl, rfl, rfl, rfl, ?_⟩
  · intro s h
    by_cases hs : s = ""
    · subst hs
      exact absurd h (by decide)
    · simp [cleanDate, hs, h]
  · intro s h0 h1 h2 h3 h4
    by_cases hs : s = ""
    · subst hs; rfl
    · simp [cleanDate, hs, h0, h1, h2, h3, h4]

/-- Witness for C6 at concrete inputs discharging both hypothesis groups. -/
theorem claim_C6_witness :
    cleanDate "2025-01-15" = "2025-01-15" ∧
    cleanDate "next Tuesday" = "next Tuesday" :=
  ⟨claim_C6_cleanDate.1 "2025-01-15" rfl,
   claim_C6_cleanDate.2.2.2.2.2 "next Tuesday" rfl rfl rfl rfl rfl⟩

/-- C9: `retry_with_backoff` with the default cap of three attempts returns
a first-attempt success directly; re-raises a non-rate-limit error
immediately with no sleep; and on rate-limit errors sleeps 1 second, then 2
seconds, before re-trying, handing back the third attempt outcome (success
or re-raised error) after the two backoff sleeps. -/
theorem claim_C9_retry_backoff (α : Type) (calls : Nat → Except String α) :
    (∀ v, calls 0 = .ok v → retryWithBackoff calls 3 = (.ok v, [])) ∧
    (∀ e0, calls 0 = .error e0 → isRateLimitError e0 = false →
      retryWithBackoff calls 3 = (.error e0, [])) ∧
    (∀ e0, calls 0 = .error e0 → isRateLimitError e0 = true →
      (∀ v, calls 1 = .ok v → retryWithBackoff calls 3 = (.ok v, [1])) ∧
      (∀ e1, calls 1 = .error e1 → isRateLimitError e1 = false →
        retryWithBackoff calls 3 = (.error e1, [1])) ∧
      (∀ e1, calls 1 = .error e1 → isRateLimitError e1 = true →
        retryWithBackoff calls 3 = (calls 2, [1, 2]))) := by
  refine ⟨?_, ?_, ?_⟩
  · intro v h
    simp [retryWithBackoff, retryGo, h]
  · intro e0 h hn
    simp [retryWithBackoff, retryGo, h, hn]
  · intro e0 h0 hy0
    refine ⟨?_, ?_, ?_⟩
    · intro v h1
      simp [retryWithBackoff, retryGo, h0, hy0, h1]
    · intro e1 h1 hn1
      simp [retryWithBackoff, retryGo, h0, hy0, h1, hn1]
    · intro e1 h1 hy1
      simp only [retryWithBackoff, retryGo, h0, hy0, h1, hy1]
      norm_num
      cases hc : calls 2 with
      | ok v => simp [hc]
      | error e2 =>
        by_cases hr : isRateLimitError e2 <;> simp [hc, hr]

/-- Witness for C9: all three behaviors at concrete call sequences. -/
theorem claim_C9_witness :
    retryWithBackoff (fun _ => (.ok 42 : Except String Nat)) 3 = (.ok 42, []) ∧
    retryWithBackoff (fun _ => (.error "boom" : Except String Nat)) 3 =
      (.error "boom", []) ∧
    retryWithBackoff
      (fun n => if n < 2 then (.error "HTTP 429" : Except String Nat) else .ok 7) 3 =
      (.ok 7, [1, 2]) := by
  refine ⟨(claim_C9_retry_backoff Nat _).1 42 rfl,
          (claim_C9_retry_backoff Nat _).2.1 "boom" rfl (by decide), ?_⟩
  have h := (((claim_C9_retry_backoff Nat
      (fun n => if n < 2 then (.error "HTTP 429" : Except String Nat) else .ok 7)).2.2
    "HTTP 429" rfl (by decide)).2.2) "HTTP 429" rfl (by decide)
  rw [h]
  rfl

theorem formatConcerts_ok_length (meta : EmailMeta) (reas : String × String)
    (bk now : String) :
    ∀ (cs : List Json) (rs : List ConcertRecord),
      formatConcerts cs meta reas bk now = .ok rs → rs.length = cs.length := by
  intro cs
  induction cs with
  | nil =>
    intro rs h
    simp only [formatConcerts] at h
    cases h
    rfl
  | cons c rest ih =>
    intro rs h
    simp only [formatConcerts, bind, Except.bind] at h
    cases h1 : setDefaultConfidence c with
    | error e => simp only [h1] at h; cases h
    | ok c2 =>
      simp only [h1] at h
      cases h2 : formatAcceptedConcertData c2 meta reas bk now with
      | error e => simp only [h2] at h; cases h
      | ok r =>
        simp only [h2] at h
        cases h3 : formatConcerts rest meta reas bk now with
        | error e => simp only [h3] at h; cases h
        | ok rs2 =>
          simp only [h3] at h
          cases h
          simp [ih rs2 h3]

/-- C1 amended: for every prompt-step outcome, backup path, model response
and metadata, `InvoiceExtractor.extract` produces exactly one record, and
`ConcertExtractor.extract` produces at least one record (never zero — no
silent drop), with one record per parsed concert when several concerts are
extracted from a single accepted email. -/
theorem claim_C1_amended (po : Except String Unit) (bk resp : String)
    (meta : EmailMeta) (now : String) :
    (invoiceExtract po bk resp meta now).length = 1 ∧
    1 ≤ (concertExtract po bk resp meta now).length := by
  constructor
  · unfold invoiceExtract
    cases po with
    | error e => rfl
    | ok u =>
      by_cases hr : resp = ""
      · simp [hr]
      · simp only [hr, if_false]
        split
        · split <;> rfl
        · rfl
  · unfold concertExtract
    cases po with
    | error e => simp
    | ok u =>
      by_cases hr : resp = ""
      · simp [hr]
      · simp only [hr, if_false]
        split
        · rename_i hne
          cases h2 : formatConcerts
              (match (parseJsonResponse resp true).1 with
                | Json.arr xs => xs | _ => []) meta
              (parseJsonResponse resp true).2 bk now with
          | error e => simp [h2]
          | ok rs =>
            simp only [h2]
            have hlen := formatConcerts_ok_length meta
              (parseJsonResponse resp true).2 bk now _ rs h2
            rw [hlen]
            rcases hx : (match (parseJsonResponse resp true).1 with
                | Json.arr xs => xs | _ => []) with _ | ⟨y, ys⟩
            · rw [hx] at hne; simp at hne
            · rw [hx]
              simp
        · simp

/-- C1 counterexample: one accepted email whose model response holds two
concert objects produces two records, not exactly one. -/
theorem claim_C1_counterexample :
    (concertExtract (.ok ()) "bk"
      "[\x7b\"artist\":\"A\"\x7d,\x7b\"artist\":\"B\"\x7d]"
      { id := "e1", subject := "s", sender := "x@y", date := "2025-01-01" }
      "now").length = 2 ∧
    (concertExtract (.ok ()) "bk"
      "[\x7b\"artist\":\"A\"\x7d,\x7b\"artist\":\"B\"\x7d]"
      { id := "e1", subject := "s", sender := "x@y", date := "2025-01-01" }
      "now").length ≠ 1 := by
  exact ⟨rfl, by decide⟩

theorem pyUpper_ne_empty (s : String) (h : s ≠ "") : pyUpper s ≠ "" := by
  intro hc
  apply h
  unfold pyUpper at hc
  have hd := congrArg String.data hc
  simp only [String.mk] at hd
  cases s with
  | mk data =>
    simp only at hd
    have hnil : data = [] := List.map_eq_nil_iff.mp hd
    rw [hnil]

theorem currencyUpper_spec (d : Json) (c : String)
    (h : pyGetCurrencyUpper d = .ok c) :
    c ≠ "" ∧
    (∀ s : String, jget d "currency" = some (Json.str s) → s ≠ "" →
      c = pyUpper s) ∧
    ((jget d "currency" = none ∨ jget d "currency" = some Json.null ∨
      jget d "currency" = some (Json.str "")) → c = "SEK") := by
  unfold pyGetCurrencyUpper jgetD at h
  cases hv : jget d "currency" with
  | none =>
    rw [hv] at h
    simp [pyTruthy] at h
    subst h
    refine ⟨by decide, ?_, ?_⟩
    · intro s2 hs2 hne2
      simp at hs2
    · intro _
      decide
  | some v =>
    rw [hv] at h
    cases v with
    | null =>
      simp [pyTruthy] at h
      subst h
      refine ⟨by decide, ?_, fun _ => by decide⟩
      intro s2 hs2 hne2
      simp at hs2
    | bool b =>
      cases b with
      | false =>
        simp [pyTruthy] at h
        subst h
        refine ⟨by decide, ?_, fun _ => by decide⟩
        intro s2 hs2 hne2
        simp at hs2
      | true => simp [pyTruthy] at h
    | num m e f =>
      by_cases hm : m = 0
      · subst hm
        simp [pyTruthy] at h
        subst h
        refine ⟨by decide, ?_, ?_⟩
        · intro s2 hs2 hne2
          simp at hs2
        · intro hor
          rcases hor with h1 | h1 | h1 <;> simp at h1
      · simp [pyTruthy, hm] at h
    | str s =>
      by_cases hs0 : s = ""
      · subst hs0
        simp only [Option.getD] at h
        rw [show pyTruthy (Json.str "") = false by decide] at h
        simp at h
        subst h
        refine ⟨by decide, ?_, fun _ => by decide⟩
        intro s2 hs2 hne2
        simp at hs2
        first
        | exact absurd hs2 hne2
        | exact absurd hs2.symm hne2
      · simp only [Option.getD] at h
        rw [show (pyTruthy (Json.str s)) = true by
            show (!s.isEmpty) = true
            cases he : s.isEmpty with
            | false => rfl
            | true => exact absurd ((String.isEmpty_iff s).mp he) hs0] at h
        simp at h
        subst h
        refine ⟨pyUpper_ne_empty s hs0, ?_, ?_⟩
        · intro s2 hs2 hne2
          simp at hs2
          rw [hs2]
        · intro hor
          rcases hor with h1 | h1 | h1 <;> simp at h1
          exact absurd h1 hs0
    | arr xs =>
      cases xs with
      | nil =>
        simp [pyTruthy] at h
        subst h
        refine ⟨by decide, ?_, ?_⟩
        · intro s2 hs2 hne2
          simp at hs2
        · intro hor
          rcases hor with h1 | h1 | h1 <;> simp at h1
      | cons y ys => simp [pyTruthy] at h
    | obj fs =>
      cases fs with
      | nil =>
        simp [pyTruthy] at h
        subst h
        refine ⟨by decide, ?_, ?_⟩
        · intro s2 hs2 hne2
          simp at hs2
        · intro hor
          rcases hor with h1 | h1 | h1 <;> simp at h1
      | cons y ys => simp [pyTruthy] at h


theorem formatAccepted_currency (d : Json) (meta : EmailMeta)
    (reas : String × String) (bk now : String) (r : InvoiceRecord)
    (h : formatAcceptedInvoiceData d meta reas bk now = .ok r) :
    pyGetCurrencyUpper d = .ok r.currency := by
  unfold formatAcceptedInvoiceData at h
  simp only [bind, Except.bind] at h
  cases h1 : pyGetOrStrip d "vendor" with
  | error e => simp only [h1] at h; cases h
  | ok vendor =>
  simp only [h1] at h
  cases h2 : pyGetOrStrip d "invoice_number" with
  | error e => simp only [h2] at h; cases h
  | ok invno =>
  simp only [h2] at h
  cases h3 : pyGetCurrencyUpper d with
  | error e => simp only [h3] at h; cases h
  | ok cur =>
  simp only [h3] at h
  cases h4 : cleanDateJ (jgetD d "due_date" (Json.str "")) with
  | error e => simp only [h4] at h; cases h
  | ok dd =>
  simp only [h4] at h
  cases h5 : cleanDateJ (jgetD d "invoice_date" (Json.str "")) with
  | error e => simp only [h5] at h; cases h
  | ok idt =>
  simp only [h5] at h
  cases h6 : pyGetOrStrip d "ocr" with
  | error e => simp only [h6] at h; cases h
  | ok ocrv =>
  simp only [h6] at h
  cases h7 : pyGetOrStrip d "description" with
  | error e => simp only [h7] at h; cases h
  | ok descv =>
  simp only [h7] at h
  cases h
  rfl

/-- C10: in every Accepted invoice record built by
`_format_accepted_invoice_data`, the currency field is never empty: it is
the model-supplied currency string converted to uppercase, and defaults to
"SEK" when the field is missing, None, or the empty string. -/
theorem claim_C10_currency_default (d : Json) (meta : EmailMeta)
    (reas : String × String) (bk now : String) (r : InvoiceRecord)
    (h : formatAcceptedInvoiceData d meta reas bk now = .ok r) :
    r.currency ≠ "" ∧
    (∀ s : String, jget d "currency" = some (Json.str s) → s ≠ "" →
      r.currency = pyUpper s) ∧
    ((jget d "currency" = none ∨ jget d "currency" = some Json.null ∨
      jget d "currency" = some (Json.str "")) → r.currency = "SEK") :=
  currencyUpper_spec d r.currency (formatAccepted_currency d meta reas bk now r h)


/-- The record produced for the C10 witness input. -/
def c10Record : InvoiceRecord :=
  { email_id := "id1", email_subject := "sub", email_sender := "sen",
    email_date := "2025-01-01", email_backup_path := "bk", extracted := true,
    vendor := "", invoice_number := "", amount := Json.str "",
    currency := "SEK", due_date := Json.str "", invoice_date := Json.str "",
    ocr := "", description := "", confidence := Json.num 0 0 true,
    claude_reasoning_before := "", claude_reasoning_after := "",
    human_evaluation := "", human_feedback := "",
    processing_timestamp := "now" }

/-- Witness for C10: a model output with currency "sek" yields an accepted
record whose currency is the non-empty uppercase "SEK". -/
theorem claim_C10_witness :
    formatAcceptedInvoiceData (Json.obj [("currency", Json.str "sek")])
      { id := "id1", subject := "sub", sender := "sen", date := "2025-01-01" }
      ("", "") "bk" "now" = .ok c10Record ∧
    c10Record.currency = "SEK" ∧ c10Record.currency ≠ "" :=
  ⟨rfl, rfl,
   (claim_C10_currency_default (Json.obj [("currency", Json.str "sek")])
     { id := "id1", subject := "sub", sender := "sen", date := "2025-01-01" }
     ("", "") "bk" "now" c10Record rfl).1⟩

/-- Number of rows carrying a given email id in the output file state. -/
def rowCount (x : String) (csv : Option (List CsvRow)) : Nat :=
  match csv with
  | none => 0
  | some rows => rows.countP fun r => r.email_id == x

theorem countP_insertRowDesc (p : CsvRow → Bool) (r : CsvRow) :
    ∀ l : List CsvRow,
      (insertRowDesc r l).countP p = l.countP p + (if p r then 1 else 0) := by
  intro l
  induction l with
  | nil => simp [insertRowDesc, List.countP_cons]
  | cons x xs ih =>
    simp only [insertRowDesc]
    cases hb : csvRowBefore r x with
    | true =>
      simp only [if_true]
      simp [List.countP_cons]
    | false =>
      simp only [Bool.false_eq_true, if_false]
      simp [List.countP_cons, ih]
      omega

theorem countP_sortRowsDesc (p : CsvRow → Bool) :
    ∀ l : List CsvRow, (sortRowsDesc l).countP p = l.countP p := by
  intro l
  induction l with
  | nil => rfl
  | cons x xs ih =>
    simp only [sortRowsDesc]
    rw [countP_insertRowDesc, ih, List.countP_cons]

theorem mem_insertRowDesc (a r : CsvRow) :
    ∀ l : List CsvRow, a ∈ insertRowDesc r l ↔ a = r ∨ a ∈ l := by
  intro l
  induction l with
  | nil => simp [insertRowDesc]
  | cons x xs ih =>
    simp only [insertRowDesc]
    cases hb : csvRowBefore r x with
    | true =>
      simp only [if_true, List.mem_cons]
    | false =>
      simp only [Bool.false_eq_true, if_false, List.mem_cons, ih]
      tauto

theorem mem_sortRowsDesc (a : CsvRow) :
    ∀ l : List CsvRow, a ∈ sortRowsDesc l ↔ a ∈ l := by
  intro l
  induction l with
  | nil => simp [sortRowsDesc]
  | cons x xs ih =>
    simp only [sortRowsDesc, mem_insertRowDesc, List.mem_cons, ih]

theorem storeEmail_ok_shape (conv : String → String)
    (dumps : EmailData → String) (now : DateTimeT) (db db2 : List EmailRow)
    (d : EmailData) (h : storeEmail conv dumps now db d = .ok db2) :
    ((db.any fun r => r.email_id == d.id) = true ∧ db2 = db) ∨
    (∃ row : EmailRow, row.email_id = d.id ∧ db2 = db ++ [row]) := by
  unfold storeEmail at h
  cases hany : db.any fun r => r.email_id == d.id with
  | true =>
    simp only [hany, if_true] at h
    cases h
    exact Or.inl ⟨rfl, rfl⟩
  | false =>
    simp only [hany, Bool.false_eq_true, if_false] at h
    split at h
    · split at h
      · cases h
        exact Or.inr ⟨_, rfl, rfl⟩
      · cases h
    · cases h
      exact Or.inr ⟨_, rfl, rfl⟩

theorem storeEmail_noop_of_present (conv : String → String)
    (dumps : EmailData → String) (now : DateTimeT) (db : List EmailRow)
    (d : EmailData) (h : (db.any fun r => r.email_id == d.id) = true) :
    storeEmail conv dumps now db d = .ok db := by
  unfold storeEmail
  simp [h]

theorem appendInvoices_of_all_present (csv2 : Option (List CsvRow))
    (nd : List CsvRow)
    (h : ∀ r ∈ nd, (loadExistingInvoices csv2).contains r.email_id = true) :
    appendInvoices csv2 nd = csv2 := by
  unfold appendInvoices
  by_cases h0 : nd.isEmpty
  · simp [h0]
  · simp only [h0, Bool.false_eq_true, if_false]
    have hfe : (nd.filter fun r => !(loadExistingInvoices csv2).contains r.email_id) = [] := by
      rw [List.filter_eq_nil_iff]
      intro a ha
      rw [h a ha]
      simp
    rw [hfe]
    simp

theorem append_ids_superset (csv : Option (List CsvRow)) (nd : List CsvRow)
    (r : CsvRow) (hr : r ∈ nd) (hd : nd.isEmpty = false) :
    (loadExistingInvoices (appendInvoices csv nd)).contains r.email_id = true := by
  unfold appendInvoices
  simp only [hd, Bool.false_eq_true, if_false]
  by_cases hf : (nd.filter fun q => !(loadExistingInvoices csv).contains q.email_id).isEmpty
  · simp only [hf, if_true]
    have hnil : (nd.filter fun q => !(loadExistingInvoices csv).contains q.email_id) = [] :=
      List.isEmpty_iff.mp hf
    have hall := List.filter_eq_nil_iff.mp hnil r hr
    cases hcb : (loadExistingInvoices csv).contains r.email_id with
    | true => rfl
    | false =>
      exfalso
      apply hall
      rw [hcb]
      rfl
  · simp only [hf, Bool.false_eq_true, if_false]
    by_cases hk : (loadExistingInvoices csv).contains r.email_id = true
    · cases csv with
      | none => simp [loadExistingInvoices] at hk
      | some rows =>
        simp only [loadExistingInvoices] at hk ⊢
        have hmem : r.email_id ∈ rows.map fun q => q.email_id :=
          List.mem_of_elem_eq_true hk
        rcases List.mem_map.mp hmem with ⟨q, hq, hqe⟩
        have : q ∈ sortRowsDesc (rows ++ (nd.filter fun q =>
            !(loadExistingInvoices (some rows)).contains q.email_id)) := by
          rw [mem_sortRowsDesc]
          exact List.mem_append_left _ hq
        rw [← hqe]
        exact List.elem_eq_true_of_mem
          (List.mem_map_of_mem (fun q : CsvRow => q.email_id) this)
    · have hcb : (loadExistingInvoices csv).contains r.email_id = false := by
        cases hcc : (loadExistingInvoices csv).contains r.email_id with
        | false => rfl
        | true => exact absurd hcc hk
      have hrf : r ∈ nd.filter fun q => !(loadExistingInvoices csv).contains q.email_id := by
        rw [List.mem_filter]
        refine ⟨hr, ?_⟩
        rw [hcb]
        rfl
      cases csv with
      | none =>
        simp only [loadExistingInvoices]
        have : r ∈ sortRowsDesc (nd.filter fun q =>
            !(loadExistingInvoices none).contains q.email_id) := by
          rw [mem_sortRowsDesc]
          exact hrf
        exact List.elem_eq_true_of_mem
          (List.mem_map_of_mem (fun q : CsvRow => q.email_id) this)
      | some rows =>
        simp only [loadExistingInvoices]
        have : r ∈ sortRowsDesc (rows ++ (nd.filter fun q =>
            !(loadExistingInvoices (some rows)).contains q.email_id)) := by
          rw [mem_sortRowsDesc]
          exact List.mem_append_right _ hrf
        exact List.elem_eq_true_of_mem
          (List.mem_map_of_mem (fun q : CsvRow => q.email_id) this)

/-- C8: marking an already-processed id is a no-op, not an error, and never
creates a duplicate row.  `store_email` leaves the database unchanged when
the id is already present, a successful store followed by a second store of
the same id changes nothing, and a fresh id is stored as exactly one row;
`append_invoices` applied twice with the same batch equals one application,
and ids already present in the file never gain rows. -/
theorem claim_C8_at_most_once (conv : String → String)
    (dumps : EmailData → String) (now : DateTimeT) (db db2 : List EmailRow)
    (d : EmailData) (csv : Option (List CsvRow)) (nd : List CsvRow) :
    ((db.any fun r => r.email_id == d.id) = true →
      storeEmail conv dumps now db d = .ok db) ∧
    (storeEmail conv dumps now db d = .ok db2 →
      storeEmail conv dumps now db2 d = .ok db2) ∧
    (storeEmail conv dumps now db d = .ok db2 →
      db.countP (fun r => r.email_id == d.id) = 0 →
      db2.countP (fun r => r.email_id == d.id) = 1) ∧
    (appendInvoices (appendInvoices csv nd) nd = appendInvoices csv nd) ∧
    (∀ x : String, x ∈ loadExistingInvoices csv →
      rowCount x (appendInvoices csv nd) = rowCount x csv) := by
  refine ⟨?_, ?_, ?_, ?_, ?_⟩
  · exact storeEmail_noop_of_present conv dumps now db d
  · intro h
    rcases storeEmail_ok_shape conv dumps now db db2 d h with ⟨hany, heq⟩ | ⟨row, hid, heq⟩
    · rw [heq]
      exact storeEmail_noop_of_present conv dumps now db d hany
    · rw [heq]
      apply storeEmail_noop_of_present
      rw [List.any_append]
      simp [hid]
  · intro h h0
    rcases storeEmail_ok_shape conv dumps now db db2 d h with ⟨hany, heq⟩ | ⟨row, hid, heq⟩
    · exfalso
      rcases List.any_eq_true.mp hany with ⟨r, hr, hbeq⟩
      have := List.countP_eq_zero.mp h0 r hr
      exact this hbeq
    · rw [heq, List.countP_append, h0, List.countP_cons]
      simp [hid]
  · by_cases h0 : nd.isEmpty
    · have h1 : ∀ c : Option (List CsvRow), appendInvoices c nd = c := by
        intro c
        simp [appendInvoices, h0]
      rw [h1, h1]
    · exact appendInvoices_of_all_present _ nd fun r hr =>
        append_ids_superset csv nd r hr (by simpa using h0)
  · intro x hx
    by_cases h0 : nd.isEmpty
    · simp [appendInvoices, h0]
    · unfold appendInvoices
      simp only [h0, Bool.false_eq_true, if_false]
      by_cases hf : (nd.filter fun q => !(loadExistingInvoices csv).contains q.email_id).isEmpty
      · rw [if_pos hf]
      · simp only [hf, Bool.false_eq_true, if_false]
        cases csv with
        | none => simp [loadExistingInvoices] at hx
        | some rows =>
          simp only [rowCount, countP_sortRowsDesc, List.countP_append]
          have hzero : (nd.filter fun q =>
              !(loadExistingInvoices (some rows)).contains q.email_id).countP
              (fun r => r.email_id == x) = 0 := by
            rw [List.countP_eq_zero]
            intro a ha hbeq
            have hcond := (List.mem_filter.mp ha).2
            have hax : a.email_id = x := eq_of_beq hbeq
            rw [hax] at hcond
            have hcx : (loadExistingInvoices (some rows)).contains x = true :=
              List.elem_eq_true_of_mem hx
            rw [hcx] at hcond
            cases hcond
          rw [hzero]
          simp

/-- Concrete email for the C8 witness. -/
def c8Email : EmailData :=
  { id := "m1", date := some "2025-01-15 10:30:00", sender := "a@b",
    subject := "s", body := "<p>hi</p>", pdfText := "" }

/-- The row `store_email` writes for `c8Email` under the identity converter
and a constant serializer. -/
def c8Row : EmailRow :=
  { email_id := "m1",
    date := { year := 2025, month := 1, day := 15, hour := 10, minute := 30, second := 0 },
    sender := "a@b", subject := "s", body_markdown := "<p>hi</p>",
    body_clean := "<p>hi</p>", pdf_text := "", raw_email := "raw" }

/-- A fixed clock value for the C8 witness. -/
def c8Now : DateTimeT :=
  { year := 2025, month := 6, day := 1, hour := 0, minute := 0, second := 0 }

/-- Existing CSV state for the C8 witness. -/
def c8Csv : Option (List CsvRow) :=
  some [{ email_id := "old", email_date := "2025-01-01 00:00:00", rest := [] }]

/-- New batch for the C8 witness: one duplicate id and one fresh id. -/
def c8New : List CsvRow :=
  [{ email_id := "old", email_date := "2025-02-02 00:00:00", rest := [] },
   { email_id := "new", email_date := "bad date", rest := [] }]

/-- Witness for C8 at concrete inputs discharging every hypothesis. -/
theorem claim_C8_witness :
    storeEmail (fun b => b) (fun _ => "raw") c8Now [c8Row] c8Email = .ok [c8Row] ∧
    List.countP (fun r => r.email_id == c8Email.id) [c8Row] = 1 ∧
    appendInvoices (appendInvoices c8Csv c8New) c8New = appendInvoices c8Csv c8New ∧
    rowCount "old" (appendInvoices c8Csv c8New) = rowCount "old" c8Csv := by
  refine ⟨?_, ?_, ?_, ?_⟩
  · exact (claim_C8_at_most_once (fun b => b) (fun _ => "raw") c8Now [c8Row] []
      c8Email c8Csv c8New).1 rfl
  · exact (claim_C8_at_most_once (fun b => b) (fun _ => "raw") c8Now [] [c8Row]
      c8Email c8Csv c8New).2.2.1 (by rfl) rfl
  · exact (claim_C8_at_most_once (fun b => b) (fun _ => "raw") c8Now [] []
      c8Email c8Csv c8New).2.2.2.1
  · exact (claim_C8_at_most_once (fun b => b) (fun _ => "raw") c8Now [] []
      c8Email c8Csv c8New).2.2.2.2 "old" (by decide)

end GmailAgent
